import Mathlib

/-!
Shallow embedding of the live-galaxy audio client (GalaxyScene component):
base64 helpers, the Live API message handler (transcript / audio scheduling /
interruption), and the per-frame render tick (volume smoothing, caption
synchronization, grace-period clear). Times are modelled as exact rationals
on the output audio clock.
-/

/-- A scheduled playback source: its scheduled start offset on the output
clock and its buffer duration (seconds). -/
structure Handle where
  start : ℚ
  dur : ℚ
deriving DecidableEq, Repr

/-- The kinetic typography React state: the displayed word chunk and the
index of the highlighted word (-1 meaning none). -/
structure KineticText where
  words : List String
  activeIndex : ℤ
deriving DecidableEq, Repr

/-- The mutable state of the component relevant to scheduling, captions and
volume: the teleprompter sync variables, the live source set, the
playing-edge flag, the pending clear-text timeout deadline, and the smoothed
volume uniform. -/
structure GalaxyState where
  turnWords : List String
  turnStartTime : ℚ
  turnAudioDuration : ℚ
  nextStartTime : ℚ
  previousStateKey : String
  kineticText : KineticText
  sources : List Handle
  aiWasPlaying : Bool
  clearTextTimeout : Option ℚ
  volume : ℚ
deriving DecidableEq, Repr

/-- Math.min on rationals, written with the base decidable comparison so
that it evaluates by kernel reduction. -/
def jmin (a b : ℚ) : ℚ := if a ≤ b then a else b

/-- Math.max on rationals, written with the base decidable comparison so
that it evaluates by kernel reduction. -/
def jmax (a b : ℚ) : ℚ := if a ≤ b then b else a

/-- Math.min on integers, written with the base decidable comparison so
that it evaluates by kernel reduction. -/
def jminZ (a b : ℤ) : ℤ := if a ≤ b then a else b

theorem jmin_eq (a b : ℚ) : jmin a b = min a b := by
  unfold jmin
  split_ifs with h
  · exact (min_eq_left h).symm
  · exact (min_eq_right (le_of_not_le h)).symm

theorem jmax_eq (a b : ℚ) : jmax a b = max a b := by
  unfold jmax
  split_ifs with h
  · exact (max_eq_right h).symm
  · exact (max_eq_left (le_of_not_le h)).symm

theorem jminZ_eq (a b : ℤ) : jminZ a b = min a b := by
  unfold jminZ
  split_ifs with h
  · exact (min_eq_left h).symm
  · exact (min_eq_right (le_of_not_le h)).symm

/-- Initial component state: all teleprompter variables zero, no sources,
empty kinetic text, volume uniform zero. -/
def initState : GalaxyState :=
  { turnWords := [], turnStartTime := 0, turnAudioDuration := 0, nextStartTime := 0,
    previousStateKey := "", kineticText := ⟨[], -1⟩, sources := [], aiWasPlaying := false,
    clearTextTimeout := none, volume := 0 }

-- ## Base64 helpers (decode / encode)

/-- The base64 alphabet used by atob/btoa. -/
def base64Chars : List Char :=
  "ABCDEFGHIJKLMNOPQRSTUVWXYZabcdefghijklmnopqrstuvwxyz0123456789+/".data

/-- Character for a sextet value. -/
def sextetChar (n : ℕ) : Char := base64Chars.getD n 'A'

/-- Sextet value of a base64 character, none if the character is not in the
alphabet. -/
def charSextet (c : Char) : Option ℕ := base64Chars.findIdx? (fun x => x = c)

/-- btoa: pack bytes three at a time into four base64 characters, padding
with = at the end. -/
def btoaAux : List ℕ → List Char
  | [] => []
  | [a] => [sextetChar (a / 4), sextetChar (a % 4 * 16), '=', '=']
  | [a, b] => [sextetChar (a / 4), sextetChar (a % 4 * 16 + b / 16), sextetChar (b % 16 * 4), '=']
  | a :: b :: c :: rest =>
      sextetChar (a / 4) :: sextetChar (a % 4 * 16 + b / 16)
        :: sextetChar (b % 16 * 4 + c / 64) :: sextetChar (c % 64) :: btoaAux rest

/-- atob: unpack four base64 characters at a time into bytes, honouring =
padding; none on malformed input (atob throws, the caller catches). -/
def atobAux : List Char → Option (List ℕ)
  | [] => some []
  | c1 :: c2 :: c3 :: c4 :: rest =>
      match charSextet c1, charSextet c2 with
      | some s1, some s2 =>
        if c3 = '=' then
          if c4 = '=' ∧ rest = [] then some [s1 * 4 + s2 / 16] else none
        else
          match charSextet c3 with
          | some s3 =>
            if c4 = '=' then
              if rest = [] then some [s1 * 4 + s2 / 16, s2 % 16 * 16 + s3 / 4] else none
            else
              match charSextet c4 with
              | some s4 =>
                match atobAux rest with
                | some t => some ((s1 * 4 + s2 / 16) :: (s2 % 16 * 16 + s3 / 4) :: (s3 % 4 * 64 + s4) :: t)
                | none => none
              | none => none
          | none => none
      | _, _ => none
  | _ => none

/-- The encode loop builds the binary string chunk by chunk (chunkSize 8192):
binary += fromCharCode(bytes.subarray(i, i + 8192)). -/
def chunkJoin (l : List ℕ) : List ℕ :=
  if h : l = [] then [] else l.take 8192 ++ chunkJoin (l.drop 8192)
termination_by l.length
decreasing_by
  simp only [List.length_drop]
  have := List.length_pos.mpr h
  omega

/-- encode: concatenate 8192-byte chunks into a binary string, then btoa. -/
def encode (bytes : List ℕ) : String := ⟨btoaAux (chunkJoin bytes)⟩

/-- decode: atob the base64 string and read the bytes back out
(charCodeAt per index); none when atob throws on malformed input. -/
def decode (base64 : String) : Option (List ℕ) := atobAux base64.data

-- ## Message handler (onmessage)

/-- JS String.prototype.trim on a character list: strip leading and
trailing whitespace. -/
def trimChars (l : List Char) : List Char :=
  ((l.dropWhile Char.isWhitespace).reverse.dropWhile Char.isWhitespace).reverse

/-- Split a character list at every whitespace character (the pieces between
consecutive separators may be empty, as with a regex split). -/
def splitWsAux : List Char → List Char → List (List Char)
  | [], acc => [acc.reverse]
  | c :: rest, acc =>
      if c.isWhitespace then acc.reverse :: splitWsAux rest []
      else splitWsAux rest (c :: acc)

/-- Split a transcript fragment into non-empty whitespace-separated words:
split on whitespace runs, keeping only words of positive length. -/
def wordsOf (text : String) : List String :=
  ((splitWsAux text.data []).map (fun w => (⟨w⟩ : String))).filter
    (fun w => w.length > 0)

/-- Handle an outputTranscription part: trim, and when non-empty push the
split words onto the Turn's word list. -/
def handleTranscript (text : String) (s : GalaxyState) : GalaxyState :=
  let t : String := ⟨trimChars text.data⟩
  if t = "" then s else { s with turnWords := s.turnWords ++ wordsOf t }

/-- decodeAudioData on a PCM16 mono 24 kHz payload: the buffer duration is
frameCount / sampleRate where frameCount = byteLength / 2; constructing the
Int16Array throws when the byte length is odd. -/
def decodeAudioDur (bytes : List ℕ) : Option ℚ :=
  if bytes.length % 2 = 0 then some (((bytes.length / 2 : ℕ) : ℚ) / 24000) else none

/-- Full decode of an inbound audio delta payload down to its buffer
duration; none when any stage throws (caught and logged by the handler). -/
def decodeDelta (payload : String) : Option ℚ :=
  match decode payload with
  | none => none
  | some bytes => decodeAudioDur bytes

/-- Schedule one successfully decoded audio buffer of duration d at output
clock time now: resynchronize when no schedule is established or the
schedule has fallen behind the clock, then start the source at
nextStartTime, append it to the live set, and advance nextStartTime and
turnAudioDuration by the buffer duration. -/
def scheduleAudio (now d : ℚ) (s : GalaxyState) : GalaxyState :=
  let s1 :=
    if s.nextStartTime = 0 ∨ s.nextStartTime < now then
      if s.turnAudioDuration = 0 then
        { s with turnStartTime := now, nextStartTime := now }
      else
        let gap := now - s.nextStartTime
        let s' := if gap > 0 then { s with turnStartTime := s.turnStartTime + gap } else s
        { s' with nextStartTime := now }
    else s
  { s1 with sources := s1.sources ++ [⟨s1.nextStartTime, d⟩],
            nextStartTime := s1.nextStartTime + d,
            turnAudioDuration := s1.turnAudioDuration + d }

/-- Handle an inbound audio delta payload: on decode failure the error is
caught and the state is left untouched; otherwise schedule the buffer. -/
def handleAudio (now : ℚ) (payload : String) (s : GalaxyState) : GalaxyState :=
  match decodeDelta payload with
  | none => s
  | some d => scheduleAudio now d s

/-- Handle an interrupted flag: clear the word list, zero the timing fields,
reset the state key, clear the kinetic text, stop every live source
(returned as the second component) and empty the set, and zero
nextStartTime. -/
def handleInterrupted (s : GalaxyState) : GalaxyState × List Handle :=
  ({ s with turnWords := [], turnAudioDuration := 0, turnStartTime := 0,
            previousStateKey := "", kineticText := ⟨[], -1⟩,
            sources := [], nextStartTime := 0 }, s.sources)

/-- One LiveServerMessage: optional transcript text, optional base64 audio
payload, and the interrupted flag. -/
structure ServerMessage where
  outputTranscription : Option String
  audioData : Option String
  interrupted : Bool
deriving DecidableEq

/-- The onmessage handler: transcript part first, then the audio part, then
the interrupted flag, all within one synchronous processing step. -/
def onMessage (now : ℚ) (msg : ServerMessage) (s : GalaxyState) : GalaxyState :=
  let s1 := match msg.outputTranscription with
    | some t => handleTranscript t s
    | none => s
  let s2 := match msg.audioData with
    | some p => handleAudio now p s1
    | none => s1
  if msg.interrupted then (handleInterrupted s2).1 else s2

-- ## Render tick

/-- Raw volume from the mean of the byte frequency spectrum: noise gate at
3, normalization ceiling 60, clamped to the unit interval. -/
def computeRawVolume (avg : ℚ) : ℚ :=
  if avg > 3 then jmin 1 (jmax 0 ((avg - 3) / (60 - 3))) else 0

/-- Asymmetric exponential smoothing toward the raw volume: attack rate 16
when the raw value is above the current one, release rate 4 otherwise,
scaled by the (already clamped) frame delta. -/
def volStep (vol c d : ℚ) : ℚ :=
  vol + (c - vol) * (if c > vol then 16 else 4) * d

/-- Words-per-second pacing: word count over the accumulated audio duration
(floored at 0.1), clamped into the range from 2 to 6. -/
def computeWps (wordCount : ℕ) (turnAudioDuration : ℚ) : ℚ :=
  jmin (jmax ((wordCount : ℚ) / jmax (1/10) turnAudioDuration) 2) 6

/-- Elapsed playback time within the Turn, clamped between 0 and the
accumulated audio duration. -/
def computeElapsed (now turnStartTime turnAudioDuration : ℚ) : ℚ :=
  jmax 0 (jmin (now - turnStartTime) turnAudioDuration)

/-- The absolute active word index computed each tick: floor of elapsed
times the pacing rate, capped at the last word index. -/
def activeWordIndex (wordCount : ℕ) (turnStartTime turnAudioDuration now : ℚ) : ℤ :=
  jminZ (Int.floor (computeElapsed now turnStartTime turnAudioDuration
        * computeWps wordCount turnAudioDuration)) ((wordCount : ℤ) - 1)

/-- The caption update performed on a tick while audio is playing: compute
the active word index; when non-negative, derive the 5-word chunk and the
index within it, and emit a new kinetic-text state only when the
chunk-and-index key differs from the previously emitted one. -/
def captionUpdate (now : ℚ) (s : GalaxyState) : GalaxyState :=
  let awa := activeWordIndex s.turnWords.length s.turnStartTime s.turnAudioDuration now
  if awa ≥ 0 then
    let a := awa.toNat
    let chunkIndex := a / 5
    let idxInChunk := a % 5
    let chunkWords := (s.turnWords.drop (chunkIndex * 5)).take 5
    let key := toString chunkIndex ++ "-" ++ toString idxInChunk
    if key ≠ s.previousStateKey then
      { s with previousStateKey := key, kineticText := ⟨chunkWords, (idxInChunk : ℤ)⟩ }
    else s
  else s

/-- Settling of the final word state when playback drains: highlight the
last word of its chunk, again deduplicated through the state key. -/
def settleFinal (s : GalaxyState) : GalaxyState :=
  let n := s.turnWords.length
  let chunkIndex := (n - 1) / 5
  let idxInChunk := (n - 1) % 5
  let chunkWords := (s.turnWords.drop (chunkIndex * 5)).take 5
  let key := toString chunkIndex ++ "-" ++ toString idxInChunk
  if key ≠ s.previousStateKey then
    { s with previousStateKey := key, kineticText := ⟨chunkWords, (idxInChunk : ℤ)⟩ }
  else s

/-- One render-loop tick at output clock time now, with raw frame delta
(clamped to 0.1) and spectrum mean avg: smooth the volume, then when
sources are live run the caption update and cancel any pending clear
timeout on the playing edge; on the draining edge settle the final word
and schedule the 3.5 s clear timeout. -/
def renderTick (now rawDelta avg : ℚ) (s : GalaxyState) : GalaxyState :=
  let delta := jmin rawDelta (1/10)
  let c := computeRawVolume avg
  let s1 := { s with volume := volStep s.volume c delta }
  if s1.sources ≠ [] then
    let s2 := if s1.turnAudioDuration > 0 ∧ s1.turnWords.length > 0 then captionUpdate now s1 else s1
    if ¬ s2.aiWasPlaying then { s2 with aiWasPlaying := true, clearTextTimeout := none } else s2
  else if s1.aiWasPlaying then
    let s2 := { s1 with aiWasPlaying := false }
    let s3 := if s2.turnWords.length > 0 then settleFinal s2 else s2
    { s3 with clearTextTimeout := some (now + 7/2) }
  else s1

/-- The clear-text timeout callback, firing 3.5 s after it was scheduled:
re-check the live source set at fire time; only when it is still empty
clear the Turn's words, timing fields, state key and kinetic text. The
timeout is one-shot: after firing no deadline remains pending. -/
def fireClearTimeout (s : GalaxyState) : GalaxyState :=
  if s.sources = [] then
    { s with turnWords := [], turnAudioDuration := 0, turnStartTime := 0,
             previousStateKey := "", kineticText := ⟨[], -1⟩, clearTextTimeout := none }
  else { s with clearTextTimeout := none }

-- ## Sequencing helpers

/-- Run a sequence of decoded audio deltas, each a pair of arrival clock
time and buffer duration. -/
def runSched (s : GalaxyState) : List (ℚ × ℚ) → GalaxyState
  | [] => s
  | (now, d) :: rest => runSched (scheduleAudio now d s) rest

/-- No starvation resynchronization occurs while running the deltas: before
each one the established nextStartTime is non-zero and has not yet passed
on the output clock. -/
def noStarveB : GalaxyState → List (ℚ × ℚ) → Bool
  | _, [] => true
  | s, (now, d) :: rest =>
      (decide (s.nextStartTime ≠ 0) && decide (now ≤ s.nextStartTime))
        && noStarveB (scheduleAudio now d s) rest

/-- The handles produced by gapless scheduling of the given durations
starting at clock offset t: each starts where the previous one ends. -/
def schedList (t : ℚ) : List (ℚ × ℚ) → List Handle
  | [] => []
  | (_, d) :: rest => ⟨t, d⟩ :: schedList (t + d) rest

/-- Sum of the durations of a delta list. -/
def sumD (ds : List (ℚ × ℚ)) : ℚ := (ds.map Prod.snd).sum

/-- Run a sequence of render ticks, each a triple of clock time, raw frame
delta and spectrum mean. -/
def runTicks (s : GalaxyState) : List (ℚ × ℚ × ℚ) → GalaxyState
  | [] => s
  | (now, rawDelta, avg) :: rest => runTicks (renderTick now rawDelta avg s) rest

-- ## Pacing and caption-index lemmas

/-- The clamped elapsed time is never negative. -/
theorem computeElapsed_nonneg (now tst dur : ℚ) : 0 ≤ computeElapsed now tst dur := by
  unfold computeElapsed
  rw [jmax_eq]
  exact le_max_left 0 _

/-- C5: For every word count and every accumulated audio duration, including
extreme ratios (very many words over a tiny duration, very few words over a
long duration, or zero duration), the wordsPerSecond pacing value lies
within the interval from 2.0 to 6.0. -/
theorem wps_clamped (wordCount : ℕ) (turnAudioDuration : ℚ) :
    2 ≤ computeWps wordCount turnAudioDuration
      ∧ computeWps wordCount turnAudioDuration ≤ 6 := by
  unfold computeWps
  rw [jmin_eq, jmax_eq]
  exact ⟨le_min (le_max_right _ _) (by norm_num), min_le_right _ _⟩

/-- C4 (amended): for every tick at which the Turn has a positive word count,
the computed activeWordIndex lies in the range from 0 to wordCount - 1; and
the index is non-decreasing in the tick's clock time provided the Turn's
word count, start time and accumulated duration are unchanged between the
two ticks (no intervening deltas). -/
theorem activeWordIndex_bounds_mono (n : ℕ) (tst dur now now' : ℚ)
    (hn : 0 < n) (hmono : now ≤ now') :
    (0 ≤ activeWordIndex n tst dur now ∧ activeWordIndex n tst dur now ≤ (n : ℤ) - 1)
      ∧ activeWordIndex n tst dur now ≤ activeWordIndex n tst dur now' := by
  simp only [activeWordIndex, jminZ_eq]
  refine ⟨⟨?_, min_le_right _ _⟩, ?_⟩
  · apply le_min
    · rw [Int.le_floor]
      push_cast
      apply mul_nonneg (computeElapsed_nonneg _ _ _)
      have h2 := (wps_clamped n dur).1
      linarith
    · omega
  · apply min_le_min _ le_rfl
    apply Int.floor_le_floor
    apply mul_le_mul_of_nonneg_right
    · simp only [computeElapsed, jmax_eq, jmin_eq]
      apply max_le_max le_rfl
      apply min_le_min _ le_rfl
      linarith
    · have h2 := (wps_clamped n dur).1
      linarith

/-- Witness for the amended C4 statement at a concrete input. -/
theorem activeWordIndex_bounds_mono_witness :
    0 < 6 ∧ (1 : ℚ) ≤ 2
      ∧ ((0 ≤ activeWordIndex 6 0 3 1 ∧ activeWordIndex 6 0 3 1 ≤ (6 : ℤ) - 1)
          ∧ activeWordIndex 6 0 3 1 ≤ activeWordIndex 6 0 3 2) :=
  ⟨by decide, by norm_num, activeWordIndex_bounds_mono 6 0 3 1 2 (by decide) (by norm_num)⟩

/-- A six-word Turn built from one transcript message. -/
def cexWordsState : GalaxyState :=
  onMessage 0 ⟨some "hello world this is a test", none, false⟩ initState

/-- The same Turn after a first 1-second audio delta at clock 0. -/
def cexTurnA : GalaxyState := scheduleAudio 0 1 cexWordsState

/-- The same uninterrupted Turn after a further 2-second audio delta arrives
at clock 0.5 (no starvation, no interruption). -/
def cexTurnB : GalaxyState := scheduleAudio (1/2) 2 cexTurnA

/-- C4 counterexample: within one uninterrupted Turn, after a second audio
delta lengthens the accumulated duration, the computed activeWordIndex
drops from 5 (at elapsed 1) to 2 (at elapsed 1.2) even though elapsed
playback time increased across the two ticks. -/
theorem activeWordIndex_decrease_cex :
    computeElapsed 1 cexTurnA.turnStartTime cexTurnA.turnAudioDuration
        < computeElapsed (6/5) cexTurnB.turnStartTime cexTurnB.turnAudioDuration
      ∧ activeWordIndex cexTurnA.turnWords.length cexTurnA.turnStartTime
          cexTurnA.turnAudioDuration 1 = 5
      ∧ activeWordIndex cexTurnB.turnWords.length cexTurnB.turnStartTime
          cexTurnB.turnAudioDuration (6/5) = 2
      ∧ ¬(activeWordIndex cexTurnA.turnWords.length cexTurnA.turnStartTime
            cexTurnA.turnAudioDuration 1
          ≤ activeWordIndex cexTurnB.turnWords.length cexTurnB.turnStartTime
              cexTurnB.turnAudioDuration (6/5)) :=
  of_decide_eq_true (by with_unfolding_all rfl)

-- ## C6 concrete caption scenario

/-- The Turn word state after the three transcript fragments of the
scenario arrive in order. -/
def scenarioWordsState : GalaxyState :=
  onMessage 0 ⟨some "is a test", none, false⟩
    (onMessage 0 ⟨some "world this", none, false⟩
      (onMessage 0 ⟨some "hello", none, false⟩ initState))

/-- The scenario Turn after one 3.0-second audio delta scheduled at clock
time 10. -/
def scenarioTurn : GalaxyState := scheduleAudio 10 3 scenarioWordsState

/-- C6: transcript fragments "hello", "world this", "is a test" give six
words in arrival order; with one 3.0 s audio delta the pacing is 2.0 words
per second; on a tick at elapsed 1.0 s the active word index is 2, the
chunk index 0, the index within the chunk 2, and the emitted caption chunk
holds the first five words with index 2 active. -/
theorem caption_scenario :
    scenarioTurn.turnWords = ["hello", "world", "this", "is", "a", "test"]
      ∧ computeWps scenarioTurn.turnWords.length scenarioTurn.turnAudioDuration = 2
      ∧ computeElapsed 11 scenarioTurn.turnStartTime scenarioTurn.turnAudioDuration = 1
      ∧ activeWordIndex scenarioTurn.turnWords.length scenarioTurn.turnStartTime
          scenarioTurn.turnAudioDuration 11 = 2
      ∧ (activeWordIndex scenarioTurn.turnWords.length scenarioTurn.turnStartTime
          scenarioTurn.turnAudioDuration 11).toNat / 5 = 0
      ∧ (activeWordIndex scenarioTurn.turnWords.length scenarioTurn.turnStartTime
          scenarioTurn.turnAudioDuration 11).toNat % 5 = 2
      ∧ (renderTick 11 (1/60) 0 scenarioTurn).kineticText
          = ⟨["hello", "world", "this", "is", "a"], 2⟩ :=
  of_decide_eq_true (by with_unfolding_all rfl)

-- ## Volume smoothing (C8)

/-- The gated and normalized raw volume always lies in the unit interval. -/
theorem computeRawVolume_mem (avg : ℚ) :
    0 ≤ computeRawVolume avg ∧ computeRawVolume avg ≤ 1 := by
  unfold computeRawVolume
  split_ifs
  · rw [jmin_eq, jmax_eq]
    exact ⟨le_min (by norm_num) (le_max_left _ _), min_le_left _ _⟩
  · norm_num

/-- One smoothing step keeps the volume within the closed interval from 0
to 8/5 when the raw target is in the unit interval and the clamped frame
delta is between 0 and 0.1. -/
theorem volStep_mem (v c d : ℚ) (hv0 : 0 ≤ v) (hv1 : v ≤ 8/5) (hc0 : 0 ≤ c)
    (hc1 : c ≤ 1) (hd0 : 0 ≤ d) (hd1 : d ≤ 1/10) :
    0 ≤ volStep v c d ∧ volStep v c d ≤ 8/5 := by
  unfold volStep
  split_ifs with h
  · constructor
    · nlinarith [mul_nonneg (mul_nonneg (le_of_lt (sub_pos.mpr h)) (by norm_num : (0:ℚ) ≤ 16)) hd0]
    · nlinarith [mul_le_mul_of_nonneg_left hd1
        (mul_nonneg (le_of_lt (sub_pos.mpr h)) (by norm_num : (0:ℚ) ≤ 16))]
  · have hcv : c ≤ v := not_lt.mp h
    constructor
    · nlinarith [mul_le_mul_of_nonneg_left hd1
        (mul_nonneg (sub_nonneg.mpr hcv) (by norm_num : (0:ℚ) ≤ 4))]
    · nlinarith [mul_nonneg (mul_nonneg (sub_nonneg.mpr hcv) (by norm_num : (0:ℚ) ≤ 4)) hd0]

/-- The caption update never touches the volume uniform. -/
theorem captionUpdate_volume (now : ℚ) (s : GalaxyState) :
    (captionUpdate now s).volume = s.volume := by
  unfold captionUpdate
  dsimp only
  split_ifs <;> rfl

/-- Settling the final word never touches the volume uniform. -/
theorem settleFinal_volume (s : GalaxyState) :
    (settleFinal s).volume = s.volume := by
  unfold settleFinal
  dsimp only
  split_ifs <;> rfl

/-- The volume after one render tick is exactly one asymmetric smoothing
step from the previous volume toward the gated raw volume, scaled by the
clamped frame delta. -/
theorem renderTick_volume (now rawDelta avg : ℚ) (s : GalaxyState) :
    (renderTick now rawDelta avg s).volume
      = volStep s.volume (computeRawVolume avg) (jmin rawDelta (1/10)) := by
  unfold renderTick
  dsimp only
  split_ifs <;> simp [captionUpdate_volume, settleFinal_volume]

/-- Volume invariant along any run of ticks: starting inside the interval
from 0 to 8/5 and with non-negative raw frame deltas, the smoothed volume
stays inside that interval. -/
theorem runTicks_volume_mem (ticks : List (ℚ × ℚ × ℚ)) :
    ∀ s : GalaxyState, 0 ≤ s.volume → s.volume ≤ 8/5 →
      (∀ t ∈ ticks, 0 ≤ t.2.1) →
      0 ≤ (runTicks s ticks).volume ∧ (runTicks s ticks).volume ≤ 8/5 := by
  induction ticks with
  | nil => exact fun s h0 h1 _ => ⟨h0, h1⟩
  | cons t rest ih =>
      rintro s h0 h1 hd
      obtain ⟨now, rawDelta, avg⟩ := t
      have hdel : 0 ≤ rawDelta := hd _ (List.mem_cons_self _ _)
      have hstep := volStep_mem s.volume (computeRawVolume avg) (jmin rawDelta (1/10))
        h0 h1 (computeRawVolume_mem avg).1 (computeRawVolume_mem avg).2
        (by rw [jmin_eq]; exact le_min hdel (by norm_num))
        (by rw [jmin_eq]; exact min_le_right _ _)
      have hv := renderTick_volume now rawDelta avg s
      exact ih (renderTick now rawDelta avg s) (hv ▸ hstep.1) (hv ▸ hstep.2)
        (fun u hu => hd u (List.mem_cons_of_mem _ hu))

/-- C8 (amended): for every sequence of ticks with arbitrary raw spectrum
means and arbitrary non-negative per-tick elapsed times, the smoothed
volume scalar, initialised to 0, gated, normalized and asymmetrically
interpolated each tick, remains within the interval from 0 to 8/5; the
claimed unit-interval bound fails because the attack rate 16 times the
clamped frame delta 0.1 overshoots the target. -/
theorem volume_bounded (ticks : List (ℚ × ℚ × ℚ)) (s : GalaxyState)
    (h0 : s.volume = 0) (hd : ∀ t ∈ ticks, 0 ≤ t.2.1) :
    0 ≤ (runTicks s ticks).volume ∧ (runTicks s ticks).volume ≤ 8/5 :=
  runTicks_volume_mem ticks s (by rw [h0]) (by rw [h0]; norm_num) hd

/-- Witness for the amended C8 statement at a concrete input. -/
theorem volume_bounded_witness :
    initState.volume = 0
      ∧ (0 ≤ (runTicks initState [(0, 1/10, 60), (1, 1/10, 0)]).volume
          ∧ (runTicks initState [(0, 1/10, 60), (1, 1/10, 0)]).volume ≤ 8/5) :=
  ⟨rfl, volume_bounded [(0, 1/10, 60), (1, 1/10, 0)] initState rfl
    (by intro t ht; fin_cases ht <;> norm_num)⟩

/-- C8 counterexample: one tick with spectrum mean 60 and frame delta 0.1
starting from the initial state drives the smoothed volume to 8/5, which
exceeds the claimed upper bound 1. -/
theorem volume_exceeds_one_cex :
    (renderTick 0 (1/10) 60 initState).volume = 8/5
      ∧ ¬((renderTick 0 (1/10) 60 initState).volume ≤ 1) :=
  of_decide_eq_true (by with_unfolding_all rfl)

-- ## Scheduler lemmas

/-- When the established schedule has not fallen behind the clock, an audio
delta is scheduled exactly at nextStartTime with no resynchronization. -/
theorem scheduleAudio_noResync (now d : ℚ) (s : GalaxyState)
    (h1 : s.nextStartTime ≠ 0) (h2 : now ≤ s.nextStartTime) :
    scheduleAudio now d s
      = { s with sources := s.sources ++ [⟨s.nextStartTime, d⟩],
                 nextStartTime := s.nextStartTime + d,
                 turnAudioDuration := s.turnAudioDuration + d } := by
  have hcond : ¬(s.nextStartTime = 0 ∨ s.nextStartTime < now) := by
    push_neg
    exact ⟨h1, h2⟩
  unfold scheduleAudio
  rw [if_neg hcond]

/-- A Turn's first buffer (accumulated duration zero) arriving when the
resynchronization condition holds sets both turnStartTime and nextStartTime
to the current clock and schedules the buffer there. -/
theorem scheduleAudio_first (now d : ℚ) (s : GalaxyState)
    (hdur : s.turnAudioDuration = 0)
    (hcond : s.nextStartTime = 0 ∨ s.nextStartTime < now) :
    scheduleAudio now d s
      = { s with turnStartTime := now,
                 sources := s.sources ++ [⟨now, d⟩],
                 nextStartTime := now + d,
                 turnAudioDuration := d } := by
  unfold scheduleAudio
  rw [if_pos hcond, if_pos hdur]
  simp [hdur]

/-- A non-first buffer arriving after the schedule has fallen behind the
clock advances turnStartTime by the starvation gap, resets the schedule to
the clock, and schedules the buffer at the clock. -/
theorem scheduleAudio_starved (now d : ℚ) (s : GalaxyState)
    (hdur : s.turnAudioDuration ≠ 0) (hlt : s.nextStartTime < now) :
    scheduleAudio now d s
      = { s with turnStartTime := s.turnStartTime + (now - s.nextStartTime),
                 sources := s.sources ++ [⟨now, d⟩],
                 nextStartTime := now + d,
                 turnAudioDuration := s.turnAudioDuration + d } := by
  unfold scheduleAudio
  rw [if_pos (Or.inr hlt), if_neg hdur]
  dsimp only
  rw [if_pos (show now - s.nextStartTime > 0 from sub_pos.mpr hlt)]

/-- C2: for every AudioDelta that is not the Turn's first buffer
(accumulated duration positive) arriving when nextStartTime has already
passed on the output clock, processing increases turnStartTime by exactly
the gap g = clock - nextStartTime and schedules the buffer at the current
clock, leaving nextStartTime = clock + duration; for the Turn's first
buffer (under the same resynchronization trigger) both turnStartTime and
the scheduled start are set to the current output clock. -/
theorem starvation_resync (now d : ℚ) (s : GalaxyState) :
    (0 < s.turnAudioDuration → s.nextStartTime < now →
      (scheduleAudio now d s).turnStartTime = s.turnStartTime + (now - s.nextStartTime)
        ∧ (scheduleAudio now d s).sources = s.sources ++ [⟨now, d⟩]
        ∧ (scheduleAudio now d s).nextStartTime = now + d)
    ∧ (s.turnAudioDuration = 0 → (s.nextStartTime = 0 ∨ s.nextStartTime < now) →
      (scheduleAudio now d s).turnStartTime = now
        ∧ (scheduleAudio now d s).sources = s.sources ++ [⟨now, d⟩]
        ∧ (scheduleAudio now d s).nextStartTime = now + d) := by
  constructor
  · intro hpos hlt
    rw [scheduleAudio_starved now d s (ne_of_gt hpos) hlt]
    exact ⟨rfl, rfl, rfl⟩
  · intro hdur hcond
    rw [scheduleAudio_first now d s hdur hcond]
    exact ⟨rfl, rfl, rfl⟩

/-- A mid-Turn scheduler state: one second of audio accumulated, schedule
established at clock offset 2, turn start at 5. -/
def starvedState : GalaxyState :=
  { initState with turnAudioDuration := 1, nextStartTime := 2, turnStartTime := 5 }

/-- Witness for C2 at concrete inputs: a starved non-first buffer (clock at
3 with schedule at 2) and a first buffer from the initial state. -/
theorem starvation_resync_witness :
    (0 < starvedState.turnAudioDuration
      ∧ starvedState.nextStartTime < 3
      ∧ (scheduleAudio 3 1 starvedState).turnStartTime
          = starvedState.turnStartTime + (3 - starvedState.nextStartTime)
      ∧ (scheduleAudio 3 1 starvedState).sources = [⟨3, 1⟩]
      ∧ (scheduleAudio 3 1 starvedState).nextStartTime = 3 + 1)
    ∧ (initState.turnAudioDuration = 0
      ∧ (scheduleAudio 4 2 initState).turnStartTime = 4
      ∧ (scheduleAudio 4 2 initState).sources = [⟨4, 2⟩]
      ∧ (scheduleAudio 4 2 initState).nextStartTime = 4 + 2) := by
  have h1 := (starvation_resync 3 1 starvedState).1
    (of_decide_eq_true (by with_unfolding_all rfl))
    (of_decide_eq_true (by with_unfolding_all rfl))
  have h2 := (starvation_resync 4 2 initState).2 rfl (Or.inl rfl)
  refine ⟨⟨of_decide_eq_true (by with_unfolding_all rfl),
    of_decide_eq_true (by with_unfolding_all rfl), h1.1, ?_, h1.2.2⟩,
    rfl, h2.1, ?_, h2.2.2⟩
  · rw [h1.2.1]
    rfl
  · rw [h2.2.1]
    rfl

-- ## Gapless scheduling chain (C1)

/-- Splitting of the no-starvation predicate at a cons cell. -/
theorem noStarveB_cons (s : GalaxyState) (now d : ℚ) (rest : List (ℚ × ℚ)) :
    noStarveB s ((now, d) :: rest) = true
      ↔ (s.nextStartTime ≠ 0 ∧ now ≤ s.nextStartTime)
          ∧ noStarveB (scheduleAudio now d s) rest = true := by
  simp [noStarveB, Bool.and_eq_true, decide_eq_true_eq, and_assoc]

/-- Running a no-starvation delta sequence appends exactly the gapless
handle chain starting at the established nextStartTime, and advances
nextStartTime and turnAudioDuration by the total scheduled duration. -/
theorem runSched_noStarve (ds : List (ℚ × ℚ)) :
    ∀ s : GalaxyState, noStarveB s ds = true →
      (runSched s ds).sources = s.sources ++ schedList s.nextStartTime ds
        ∧ (runSched s ds).nextStartTime = s.nextStartTime + sumD ds
        ∧ (runSched s ds).turnAudioDuration = s.turnAudioDuration + sumD ds := by
  induction ds with
  | nil =>
      intro s _
      simp [runSched, schedList, sumD]
  | cons p rest ih =>
      rintro s h
      obtain ⟨now, d⟩ := p
      rw [noStarveB_cons] at h
      obtain ⟨⟨h1, h2⟩, h3⟩ := h
      have H := ih (scheduleAudio now d s) h3
      rw [scheduleAudio_noResync now d s h1 h2] at H
      show (runSched (scheduleAudio now d s) rest).sources = _
        ∧ (runSched (scheduleAudio now d s) rest).nextStartTime = _
        ∧ (runSched (scheduleAudio now d s) rest).turnAudioDuration = _
      rw [scheduleAudio_noResync now d s h1 h2]
      refine ⟨?_, ?_, ?_⟩
      · rw [H.1]
        simp [schedList, sumD, List.append_assoc]
      · rw [H.2.1]
        simp [sumD, add_assoc]
      · rw [H.2.2]
        simp [sumD, add_assoc]

/-- The i-th handle of the gapless chain starts at the base offset plus the
sum of the durations before it, and carries the i-th duration. -/
theorem schedList_getD (ds : List (ℚ × ℚ)) :
    ∀ (t : ℚ) (i : ℕ), i < ds.length →
      (schedList t ds).getD i ⟨0, 0⟩
        = ⟨t + sumD (ds.take i), (ds.getD i (0, 0)).2⟩ := by
  induction ds with
  | nil =>
      intro t i h
      simp at h
  | cons p rest ih =>
      intro t i h
      obtain ⟨now, d⟩ := p
      cases i with
      | zero => simp [schedList, sumD]
      | succ i =>
          simp only [schedList, List.getD_cons_succ, List.take_succ_cons]
          rw [ih (t + d) i (by simpa using h)]
          simp [sumD, add_assoc]

/-- Sum of the first i+1 durations is the sum of the first i plus the i-th. -/
theorem sumD_take_succ (ds : List (ℚ × ℚ)) :
    ∀ i, i < ds.length →
      sumD (ds.take (i+1)) = sumD (ds.take i) + (ds.getD i (0, 0)).2 := by
  induction ds with
  | nil =>
      intro i h
      simp at h
  | cons p rest ih =>
      intro i h
      obtain ⟨now, d⟩ := p
      cases i with
      | zero => simp [sumD]
      | succ i =>
          simp only [List.take_succ_cons, List.getD_cons_succ]
          have := ih i (by simpa using h)
          simp only [sumD, List.map_cons, List.sum_cons] at this ⊢
          rw [this, add_assoc]

/-- C1: for every sequence of successfully decoded AudioDelta durations
scheduled within one Turn (started fresh) with no starvation
resynchronization between them, consecutive scheduled handles satisfy
start[i+1] = start[i] + d[i], the i-th handle carries duration d[i], and
every buffer duration is added to the Turn's accumulated audio duration. -/
theorem scheduler_gapless (now1 d1 : ℚ) (rest : List (ℚ × ℚ)) (s : GalaxyState)
    (hsrc : s.sources = []) (hdur : s.turnAudioDuration = 0) (hnext : s.nextStartTime = 0)
    (hchain : noStarveB (scheduleAudio now1 d1 s) rest = true)
    (i : ℕ) (hi : i + 1 < ((now1, d1) :: rest).length) :
    ((runSched s ((now1, d1) :: rest)).sources.getD (i+1) ⟨0, 0⟩).start
        = ((runSched s ((now1, d1) :: rest)).sources.getD i ⟨0, 0⟩).start
          + (((now1, d1) :: rest).getD i (0, 0)).2
      ∧ ((runSched s ((now1, d1) :: rest)).sources.getD i ⟨0, 0⟩).dur
          = (((now1, d1) :: rest).getD i (0, 0)).2
      ∧ (runSched s ((now1, d1) :: rest)).turnAudioDuration
          = sumD ((now1, d1) :: rest) := by
  have hrun : runSched s ((now1, d1) :: rest) = runSched (scheduleAudio now1 d1 s) rest := rfl
  have hfix := scheduleAudio_first now1 d1 s hdur (Or.inl hnext)
  rw [hsrc] at hfix
  simp only [List.nil_append] at hfix
  have H := runSched_noStarve rest (scheduleAudio now1 d1 s) hchain
  rw [hfix] at H
  have hsources : (runSched s ((now1, d1) :: rest)).sources
      = schedList now1 ((now1, d1) :: rest) := by
    rw [hrun, hfix, H.1]
    simp [schedList]
  have hi' : i < ((now1, d1) :: rest).length := Nat.lt_of_succ_lt hi
  refine ⟨?_, ?_, ?_⟩
  · rw [hsources, schedList_getD _ now1 (i+1) hi, schedList_getD _ now1 i hi',
      sumD_take_succ _ i hi']
    simp [add_assoc]
  · rw [hsources, schedList_getD _ now1 i hi']
  · rw [hrun, hfix, H.2.2]
    simp [sumD]

/-- Witness for C1 at a concrete input: two deltas of durations 2 and 1,
the second arriving exactly when the first is scheduled to end. -/
theorem scheduler_gapless_witness :
    (initState.sources = [] ∧ initState.turnAudioDuration = 0
        ∧ initState.nextStartTime = 0
        ∧ noStarveB (scheduleAudio 1 2 initState) [(3, 1)] = true ∧ 0 + 1 < 2)
      ∧ (((runSched initState [(1, 2), (3, 1)]).sources.getD 1 ⟨0, 0⟩).start
            = ((runSched initState [(1, 2), (3, 1)]).sources.getD 0 ⟨0, 0⟩).start
              + (([(1, 2), (3, 1)] : List (ℚ × ℚ)).getD 0 (0, 0)).2
          ∧ ((runSched initState [(1, 2), (3, 1)]).sources.getD 0 ⟨0, 0⟩).dur
              = (([(1, 2), (3, 1)] : List (ℚ × ℚ)).getD 0 (0, 0)).2
          ∧ (runSched initState [(1, 2), (3, 1)]).turnAudioDuration
              = sumD [(1, 2), (3, 1)]) :=
  ⟨⟨rfl, rfl, rfl, of_decide_eq_true (by with_unfolding_all rfl), by norm_num⟩,
    scheduler_gapless 1 2 [(3, 1)] initState rfl rfl rfl
      (of_decide_eq_true (by with_unfolding_all rfl)) 0 (by norm_num)⟩

-- ## Interruption (C3)

/-- A render tick on a state with no sources and no words leaves the word
list empty and the kinetic text unchanged. -/
theorem renderTick_empty (now rawDelta avg : ℚ) (s : GalaxyState)
    (hsrc : s.sources = []) (hw : s.turnWords = []) :
    (renderTick now rawDelta avg s).turnWords = []
      ∧ (renderTick now rawDelta avg s).kineticText = s.kineticText := by
  unfold renderTick
  dsimp only
  split_ifs <;> simp_all [settleFinal]

/-- C3: processing one Interrupted event, within that single processing
step, explicitly stops every live handle (the stopped set is exactly the
live set), leaves the live-handle set empty, zeroes turnStartTime,
accumulated audio duration and nextStartTime, empties the word list, and
sets the emitted caption state to the empty inactive chunk; moreover any
later render tick on the reset state still observes the empty word list
and the cleared caption, so no tick sees a partially-reset Turn. -/
theorem interrupted_reset (now : ℚ) (msg : ServerMessage) (s : GalaxyState)
    (hmsg : msg.interrupted = true) :
    (∀ u : GalaxyState, (handleInterrupted u).2 = u.sources
        ∧ (handleInterrupted u).1.sources = [])
      ∧ (onMessage now msg s).sources = []
      ∧ (onMessage now msg s).turnStartTime = 0
      ∧ (onMessage now msg s).turnAudioDuration = 0
      ∧ (onMessage now msg s).nextStartTime = 0
      ∧ (onMessage now msg s).turnWords = []
      ∧ (onMessage now msg s).kineticText = ⟨[], -1⟩
      ∧ (∀ now2 rawDelta avg : ℚ,
          (renderTick now2 rawDelta avg (onMessage now msg s)).turnWords = []
            ∧ (renderTick now2 rawDelta avg (onMessage now msg s)).kineticText
                = ⟨[], -1⟩) := by
  have hsrc2 : (onMessage now msg s).sources = [] := by
    simp [onMessage, hmsg, handleInterrupted]
  have hw2 : (onMessage now msg s).turnWords = [] := by
    simp [onMessage, hmsg, handleInterrupted]
  have hk2 : (onMessage now msg s).kineticText = ⟨[], -1⟩ := by
    simp [onMessage, hmsg, handleInterrupted]
  refine ⟨fun u => ⟨rfl, rfl⟩, hsrc2, ?_, ?_, ?_, hw2, hk2, ?_⟩
  · simp [onMessage, hmsg, handleInterrupted]
  · simp [onMessage, hmsg, handleInterrupted]
  · simp [onMessage, hmsg, handleInterrupted]
  · intro now2 rawDelta avg
    have h := renderTick_empty now2 rawDelta avg _ hsrc2 hw2
    exact ⟨h.1, h.2.trans hk2⟩

/-- A mid-utterance state with one live source, words, a caption on screen
and non-zero timing fields. -/
def interruptDemoState : GalaxyState :=
  { turnWords := ["hi", "there"], turnStartTime := 2, turnAudioDuration := 3,
    nextStartTime := 5, previousStateKey := "0-1", kineticText := ⟨["hi", "there"], 1⟩,
    sources := [⟨2, 3⟩], aiWasPlaying := true, clearTextTimeout := none, volume := 1/2 }

/-- Witness for C3 at a concrete input. -/
theorem interrupted_reset_witness :
    (⟨none, none, true⟩ : ServerMessage).interrupted = true
      ∧ (handleInterrupted interruptDemoState).2 = interruptDemoState.sources
      ∧ (onMessage 9 ⟨none, none, true⟩ interruptDemoState).sources = []
      ∧ (onMessage 9 ⟨none, none, true⟩ interruptDemoState).turnStartTime = 0
      ∧ (onMessage 9 ⟨none, none, true⟩ interruptDemoState).turnAudioDuration = 0
      ∧ (onMessage 9 ⟨none, none, true⟩ interruptDemoState).nextStartTime = 0
      ∧ (onMessage 9 ⟨none, none, true⟩ interruptDemoState).turnWords = []
      ∧ (onMessage 9 ⟨none, none, true⟩ interruptDemoState).kineticText = ⟨[], -1⟩
      ∧ (renderTick 10 (1/60) 0 (onMessage 9 ⟨none, none, true⟩ interruptDemoState)).turnWords
          = []
      ∧ (renderTick 10 (1/60) 0 (onMessage 9 ⟨none, none, true⟩ interruptDemoState)).kineticText
          = ⟨[], -1⟩ := by
  have h := interrupted_reset 9 ⟨none, none, true⟩ interruptDemoState rfl
  obtain ⟨hall, h1, h2, h3, h4, h5, h6, h7⟩ := h
  exact ⟨rfl, (hall interruptDemoState).1, h1, h2, h3, h4, h5, h6,
    (h7 10 (1/60) 0).1, (h7 10 (1/60) 0).2⟩

-- ## Malformed delta isolation (C9)

/-- C9: an inbound AudioDelta whose payload fails to decode is skipped,
leaving the scheduler state exactly as it was, and any subsequent delta is
processed exactly as if the malformed one had never arrived. -/
theorem malformed_delta_skipped (now : ℚ) (payload : String) (s : GalaxyState)
    (hbad : decodeDelta payload = none) :
    handleAudio now payload s = s
      ∧ (∀ (now2 : ℚ) (payload2 : String),
          handleAudio now2 payload2 (handleAudio now payload s)
            = handleAudio now2 payload2 s) := by
  have h1 : handleAudio now payload s = s := by
    unfold handleAudio
    rw [hbad]
  exact ⟨h1, fun now2 p2 => by rw [h1]⟩

/-- Witness for C9 at a concrete input: the payload "!" is rejected by atob
and leaves the mid-Turn state untouched, while a well-formed subsequent
delta is processed identically. -/
theorem malformed_delta_skipped_witness :
    decodeDelta "!" = none
      ∧ handleAudio 5 "!" starvedState = starvedState
      ∧ handleAudio 7 "AAAA" (handleAudio 5 "!" starvedState)
          = handleAudio 7 "AAAA" starvedState := by
  have h := malformed_delta_skipped 5 "!" starvedState
    (of_decide_eq_true (by with_unfolding_all rfl))
  exact ⟨of_decide_eq_true (by with_unfolding_all rfl), h.1, h.2 7 "AAAA"⟩

-- ## Grace-period clear (C7)

/-- Settling the final word never touches the word list. -/
theorem settleFinal_turnWords (s : GalaxyState) :
    (settleFinal s).turnWords = s.turnWords := by
  unfold settleFinal
  dsimp only
  split_ifs <;> rfl

/-- C7: when the live-handle set has just drained (empty set, playing flag
still on, words remaining), the tick freezes the caption at the final
computed chunk index (when its key is new) and schedules the 3.5 s clear
timer without touching the word list; scheduling any AudioDelta always
leaves a live handle, and the timer callback re-checks the handle set at
fire time, so with a handle present it clears nothing while consuming the
one-shot timer, and transcripts keep extending the same word list; with the
set still empty at fire time it clears words, timing fields and caption,
and consumes the timer so the clear can only happen once. -/
theorem grace_period_clear (now rawDelta avg : ℚ) (s : GalaxyState) :
    (s.sources = [] → s.aiWasPlaying = true → s.turnWords ≠ [] →
      (renderTick now rawDelta avg s).clearTextTimeout = some (now + 7/2)
        ∧ (renderTick now rawDelta avg s).turnWords = s.turnWords
        ∧ (toString ((s.turnWords.length - 1) / 5) ++ "-"
              ++ toString ((s.turnWords.length - 1) % 5) ≠ s.previousStateKey →
            (renderTick now rawDelta avg s).kineticText
              = ⟨(s.turnWords.drop (((s.turnWords.length - 1) / 5) * 5)).take 5,
                  (((s.turnWords.length - 1) % 5 : ℕ) : ℤ)⟩))
      ∧ ((∀ (now2 d : ℚ) (u : GalaxyState), (scheduleAudio now2 d u).sources ≠ [])
        ∧ (∀ u : GalaxyState, u.sources ≠ [] →
            (fireClearTimeout u).turnWords = u.turnWords
              ∧ (fireClearTimeout u).kineticText = u.kineticText
              ∧ (fireClearTimeout u).turnAudioDuration = u.turnAudioDuration
              ∧ (fireClearTimeout u).clearTextTimeout = none)
        ∧ (∀ (text : String) (u : GalaxyState),
            (handleTranscript text u).turnWords.take u.turnWords.length = u.turnWords))
      ∧ (∀ u : GalaxyState, u.sources = [] →
          (fireClearTimeout u).turnWords = []
            ∧ (fireClearTimeout u).turnAudioDuration = 0
            ∧ (fireClearTimeout u).turnStartTime = 0
            ∧ (fireClearTimeout u).kineticText = ⟨[], -1⟩
            ∧ (fireClearTimeout u).clearTextTimeout = none) := by
  refine ⟨?_, ⟨?_, ?_, ?_⟩, ?_⟩
  · intro h1 h2 h3
    unfold renderTick
    dsimp only
    rw [if_neg (by simp [h1]), if_pos (by simp [h2]),
      if_pos (by simpa [List.length_pos] using h3)]
    refine ⟨rfl, settleFinal_turnWords _, ?_⟩
    intro hkey
    unfold settleFinal
    dsimp only
    rw [if_pos hkey]
  · intro now2 d u
    unfold scheduleAudio
    dsimp only
    split_ifs <;> simp
  · intro u hu
    unfold fireClearTimeout
    rw [if_neg hu]
    exact ⟨rfl, rfl, rfl, rfl⟩
  · intro text u
    unfold handleTranscript
    dsimp only
    split_ifs
    · exact List.take_length u.turnWords
    · exact List.take_left u.turnWords _
  · intro u hu
    unfold fireClearTimeout
    rw [if_pos hu]
    exact ⟨rfl, rfl, rfl, rfl, rfl⟩

/-- A just-drained state: words remain, the playing flag is still set, and
the live-handle set has emptied. -/
def drainState : GalaxyState :=
  { turnWords := ["stars", "align"], turnStartTime := 12, turnAudioDuration := 2,
    nextStartTime := 14, previousStateKey := "", kineticText := ⟨[], -1⟩,
    sources := [], aiWasPlaying := true, clearTextTimeout := none, volume := 1/4 }

/-- Witness for C7 on a concrete trace: the drain tick at clock 20 freezes
the caption on the final word and arms the 3.5 s timer; an audio delta at
23.4 repopulates the handle set so the fire-time re-check clears nothing
and a transcript keeps extending the same list; with no audio the fire
clears everything exactly once. -/
theorem grace_period_clear_witness :
    drainState.sources = [] ∧ drainState.aiWasPlaying = true
      ∧ drainState.turnWords ≠ []
      ∧ (renderTick 20 (1/60) 0 drainState).clearTextTimeout = some (20 + 7/2)
      ∧ (renderTick 20 (1/60) 0 drainState).turnWords = drainState.turnWords
      ∧ (renderTick 20 (1/60) 0 drainState).kineticText = ⟨["stars", "align"], 1⟩
      ∧ (scheduleAudio (117/5) 1 (renderTick 20 (1/60) 0 drainState)).sources ≠ []
      ∧ (fireClearTimeout (scheduleAudio (117/5) 1 (renderTick 20 (1/60) 0 drainState))).turnWords
          = (scheduleAudio (117/5) 1 (renderTick 20 (1/60) 0 drainState)).turnWords
      ∧ (fireClearTimeout (scheduleAudio (117/5) 1 (renderTick 20 (1/60) 0 drainState))).clearTextTimeout
          = none
      ∧ (handleTranscript " and glow" (scheduleAudio (117/5) 1
            (renderTick 20 (1/60) 0 drainState))).turnWords.take 2
          = (scheduleAudio (117/5) 1 (renderTick 20 (1/60) 0 drainState)).turnWords
      ∧ (fireClearTimeout (renderTick 20 (1/60) 0 drainState)).turnWords = []
      ∧ (fireClearTimeout (renderTick 20 (1/60) 0 drainState)).turnAudioDuration = 0
      ∧ (fireClearTimeout (renderTick 20 (1/60) 0 drainState)).kineticText = ⟨[], -1⟩
      ∧ (fireClearTimeout (renderTick 20 (1/60) 0 drainState)).clearTextTimeout = none := by
  have h := grace_period_clear 20 (1/60) 0 drainState
  obtain ⟨ha, ⟨hb1, hb2, hb3⟩, hc⟩ := h
  have ha' := ha rfl rfl (by simp [drainState])
  have hword : (scheduleAudio (117/5) 1 (renderTick 20 (1/60) 0 drainState)).turnWords.length
      = 2 := of_decide_eq_true (by with_unfolding_all rfl)
  have hsrcS := hb1 (117/5) 1 (renderTick 20 (1/60) 0 drainState)
  have hfireS := hb2 _ hsrcS
  have hfireE := hc (renderTick 20 (1/60) 0 drainState)
    (of_decide_eq_true (by with_unfolding_all rfl))
  refine ⟨rfl, rfl, by simp [drainState], ha'.1, ha'.2.1, ?_, hsrcS, hfireS.1, hfireS.2.2.2,
    ?_, hfireE.1, hfireE.2.1, hfireE.2.2.2.1, hfireE.2.2.2.2⟩
  · have := ha'.2.2 (of_decide_eq_true (by with_unfolding_all rfl))
    exact this.trans (of_decide_eq_true (by with_unfolding_all rfl))
  · have := hb3 " and glow" (scheduleAudio (117/5) 1 (renderTick 20 (1/60) 0 drainState))
    rw [hword] at this
    exact this

-- ## Base64 round-trip (C10)

/-- Alphabet lookup inverts character selection for every sextet, and no
alphabet character is the padding character. -/
theorem charSextet_sextetChar : ∀ s : ℕ, s < 64 →
    charSextet (sextetChar s) = some s ∧ sextetChar s ≠ '=' := by
  decide

/-- atob inverts btoa on every byte list. -/
theorem atobAux_btoaAux : ∀ l : List ℕ, (∀ x ∈ l, x < 256) →
    atobAux (btoaAux l) = some l
  | [], _ => rfl
  | [a], h => by
      have ha : a < 256 := h a (by simp)
      have h1 := charSextet_sextetChar (a / 4) (by omega)
      have h2 := charSextet_sextetChar (a % 4 * 16) (by omega)
      simp [btoaAux, atobAux, h1.1, h2.1]
      omega
  | [a, b], h => by
      have ha : a < 256 := h a (by simp)
      have hb : b < 256 := h b (by simp)
      have h1 := charSextet_sextetChar (a / 4) (by omega)
      have h2 := charSextet_sextetChar (a % 4 * 16 + b / 16) (by omega)
      have h3 := charSextet_sextetChar (b % 16 * 4) (by omega)
      simp [btoaAux, atobAux, h1.1, h2.1, h3.1, h3.2]
      omega
  | a :: b :: c :: rest, h => by
      have ha : a < 256 := h a (by simp)
      have hb : b < 256 := h b (by simp)
      have hc : c < 256 := h c (by simp)
      have ih := atobAux_btoaAux rest (fun x hx => h x (by simp [hx]))
      have h1 := charSextet_sextetChar (a / 4) (by omega)
      have h2 := charSextet_sextetChar (a % 4 * 16 + b / 16) (by omega)
      have h3 := charSextet_sextetChar (b % 16 * 4 + c / 64) (by omega)
      have h4 := charSextet_sextetChar (c % 64) (by omega)
      simp [btoaAux, atobAux, h1.1, h2.1, h3.1, h3.2, h4.1, h4.2, ih]
      refine ⟨?_, ?_, ?_⟩ <;> omega

/-- The chunked concatenation performed by the encode loop reassembles the
original byte sequence. -/
theorem chunkJoin_eq (l : List ℕ) : chunkJoin l = l := by
  unfold chunkJoin
  split
  next h => exact h.symm
  next h =>
    have ihr := chunkJoin_eq (l.drop 8192)
    rw [ihr, List.take_append_drop]
termination_by l.length
decreasing_by
  simp only [List.length_drop]
  rename_i h2
  have := List.length_pos.mpr h2
  omega

/-- C10: the base64 helpers are mutually inverse on byte arrays — for every
byte list, decoding the encoded payload returns exactly the original bytes,
independently of the 8192-byte chunking used inside encode; the outbound
PCM16 payload therefore survives encoding losslessly. -/
theorem base64_roundtrip (bytes : List ℕ) (hb : ∀ x ∈ bytes, x < 256) :
    decode (encode bytes) = some bytes := by
  show atobAux (String.data ⟨btoaAux (chunkJoin bytes)⟩) = some bytes
  rw [show (String.data ⟨btoaAux (chunkJoin bytes)⟩) = btoaAux (chunkJoin bytes) from rfl,
    chunkJoin_eq]
  exact atobAux_btoaAux bytes hb

/-- Witness for C10 at a concrete byte array whose length exercises the
padding path. -/
theorem base64_roundtrip_witness :
    (∀ x ∈ [0, 1, 255, 77], x < 256)
      ∧ decode (encode [0, 1, 255, 77]) = some [0, 1, 255, 77] :=
  ⟨by decide, base64_roundtrip [0, 1, 255, 77] (by decide)⟩
